import Mathlib

/-!
Verification of the CadApp 3D viewer (appController.js / scene.js, axesActor.js,
settingsView.js) against its natural-language specification.

The JavaScript code is shallowly embedded: three.js vector and quaternion
operations (the CDN build used by the repository, circa r123-r136) are modelled
over the real numbers, DOM/scene state is modelled as explicit records, and the
pointer handlers become state-transition functions.  Floating-point rounding is
idealised to exact real arithmetic throughout.
-/

/-- Embedding of THREE.Vector3: a triple of coordinates. -/
structure Vec3 (α : Type) where
  x : α
  y : α
  z : α
deriving DecidableEq

/-- Componentwise addition (THREE.Vector3.add). -/
def vadd {α : Type} [Add α] (a b : Vec3 α) : Vec3 α :=
  ⟨a.x + b.x, a.y + b.y, a.z + b.z⟩

/-- Componentwise subtraction (THREE.Vector3.sub / subVectors). -/
def vsub {α : Type} [Sub α] (a b : Vec3 α) : Vec3 α :=
  ⟨a.x - b.x, a.y - b.y, a.z - b.z⟩

/-- Negation of a vector. -/
def vneg {α : Type} [Neg α] (a : Vec3 α) : Vec3 α :=
  ⟨-a.x, -a.y, -a.z⟩

/-- Scalar multiple (THREE.Vector3.multiplyScalar). -/
def smul {α : Type} [Mul α] (c : α) (a : Vec3 α) : Vec3 α :=
  ⟨c * a.x, c * a.y, c * a.z⟩

/-- Cross product (THREE.Vector3.crossVectors). -/
def cross {α : Type} [Ring α] (a b : Vec3 α) : Vec3 α :=
  ⟨a.y * b.z - a.z * b.y, a.z * b.x - a.x * b.z, a.x * b.y - a.y * b.x⟩

/-- Dot product (THREE.Vector3.dot). -/
def dot {α : Type} [Ring α] (a b : Vec3 α) : α :=
  a.x * b.x + a.y * b.y + a.z * b.z

/-- Squared euclidean length (THREE.Vector3.lengthSq). -/
def lengthSq {α : Type} [Ring α] (a : Vec3 α) : α :=
  a.x * a.x + a.y * a.y + a.z * a.z

/-- The zero vector, written new THREE.Vector3(0,0,0) in the source. -/
def vzero {α : Type} [Zero α] : Vec3 α := ⟨0, 0, 0⟩

/-- Euclidean length (THREE.Vector3.length). -/
noncomputable def vlength (a : Vec3 ℝ) : ℝ :=
  Real.sqrt (lengthSq a)

/-- Embedding of THREE.Vector3.normalize, which divides by length() or 1 when
    the length is zero (the JS expression this.length() or-else 1). -/
noncomputable def vnormalize (a : Vec3 ℝ) : Vec3 ℝ :=
  smul (1 / (if vlength a = 0 then 1 else vlength a)) a

/-- Embedding of THREE.Vector3.setLength: normalize then multiplyScalar. -/
noncomputable def setLength (a : Vec3 ℝ) (l : ℝ) : Vec3 ℝ :=
  smul l (vnormalize a)

/-- Embedding of THREE.Quaternion: x, y, z imaginary parts and w real part. -/
structure Quat where
  x : ℝ
  y : ℝ
  z : ℝ
  w : ℝ

/-- The identity quaternion (0,0,0,1). -/
def quatOne : Quat := ⟨0, 0, 0, 1⟩

/-- Hamilton product, exactly as written in THREE.Quaternion.multiplyQuaternions. -/
def quatMul (a b : Quat) : Quat :=
  ⟨a.x * b.w + a.w * b.x + a.y * b.z - a.z * b.y,
   a.y * b.w + a.w * b.y + a.z * b.x - a.x * b.z,
   a.z * b.w + a.w * b.z + a.x * b.y - a.y * b.x,
   a.w * b.w - a.x * b.x - a.y * b.y - a.z * b.z⟩

/-- Conjugate (THREE.Quaternion.conjugate). -/
def quatConj (a : Quat) : Quat := ⟨-a.x, -a.y, -a.z, a.w⟩

/-- Embedding of THREE.Quaternion.invert in the three.js build used by the
    repository, which simply returns the conjugate (the quaternion is assumed
    to have unit length). -/
def quatInvert (a : Quat) : Quat := quatConj a

/-- Squared norm of a quaternion (THREE.Quaternion.lengthSq). -/
def quatNormSq (a : Quat) : ℝ :=
  a.x * a.x + a.y * a.y + a.z * a.z + a.w * a.w

/-- Embedding of THREE.Quaternion.setFromAxisAngle; the axis is assumed to be
    normalized by the caller. -/
noncomputable def setFromAxisAngle (axis : Vec3 ℝ) (angle : ℝ) : Quat :=
  ⟨axis.x * Real.sin (angle / 2), axis.y * Real.sin (angle / 2),
   axis.z * Real.sin (angle / 2), Real.cos (angle / 2)⟩

/-- Embedding of THREE.Vector3.applyQuaternion as implemented in the three.js
    build used by the repository: first quat times vector, then the result
    times the conjugate quat, spelled with the same intermediate values. -/
def applyQuaternion (v : Vec3 ℝ) (q : Quat) : Vec3 ℝ :=
  let ix := q.w * v.x + q.y * v.z - q.z * v.y
  let iy := q.w * v.y + q.z * v.x - q.x * v.z
  let iz := q.w * v.z + q.x * v.y - q.y * v.x
  let iw := -q.x * v.x - q.y * v.y - q.z * v.z
  ⟨ix * q.w + iw * (-q.x) + iy * (-q.z) - iz * (-q.y),
   iy * q.w + iw * (-q.y) + iz * (-q.x) - ix * (-q.z),
   iz * q.w + iw * (-q.z) + ix * (-q.y) - iy * (-q.x)⟩

/-! ### Basic algebraic lemmas about the embedded vector library -/

theorem Vec3.ext_iff {α : Type} {a b : Vec3 α} :
    a = b ↔ a.x = b.x ∧ a.y = b.y ∧ a.z = b.z := by
  cases a; cases b; simp [Vec3.mk.injEq]

theorem lengthSq_nonneg (a : Vec3 ℝ) : 0 ≤ lengthSq a := by
  unfold lengthSq
  nlinarith [mul_self_nonneg a.x, mul_self_nonneg a.y, mul_self_nonneg a.z]

theorem lengthSq_eq_zero_iff (a : Vec3 ℝ) : lengthSq a = 0 ↔ a = vzero := by
  unfold lengthSq vzero
  rw [Vec3.ext_iff]
  constructor
  · intro h
    refine ⟨?_, ?_, ?_⟩ <;> simp only [] <;>
      nlinarith [mul_self_nonneg a.x, mul_self_nonneg a.y, mul_self_nonneg a.z]
  · rintro ⟨hx, hy, hz⟩
    simp only [] at hx hy hz
    simp [hx, hy, hz]

theorem vlength_nonneg (a : Vec3 ℝ) : 0 ≤ vlength a :=
  Real.sqrt_nonneg _

theorem vlength_eq_zero_iff (a : Vec3 ℝ) : vlength a = 0 ↔ a = vzero := by
  unfold vlength
  rw [Real.sqrt_eq_zero (lengthSq_nonneg a)]
  exact lengthSq_eq_zero_iff a

theorem vlength_sq (a : Vec3 ℝ) : vlength a * vlength a = lengthSq a := by
  unfold vlength
  exact Real.mul_self_sqrt (lengthSq_nonneg a)

theorem lengthSq_smul (c : ℝ) (a : Vec3 ℝ) :
    lengthSq (smul c a) = c ^ 2 * lengthSq a := by
  unfold lengthSq smul; ring

theorem vlength_smul (c : ℝ) (a : Vec3 ℝ) :
    vlength (smul c a) = |c| * vlength a := by
  unfold vlength
  rw [lengthSq_smul, Real.sqrt_mul (sq_nonneg c), Real.sqrt_sq_eq_abs]

theorem vlength_pos_of_ne_zero {a : Vec3 ℝ} (h : a ≠ vzero) : 0 < vlength a := by
  rcases lt_or_eq_of_le (vlength_nonneg a) with hlt | heq
  · exact hlt
  · exact absurd ((vlength_eq_zero_iff a).mp heq.symm) h

theorem vnormalize_lengthSq {a : Vec3 ℝ} (h : a ≠ vzero) :
    lengthSq (vnormalize a) = 1 := by
  have hpos := vlength_pos_of_ne_zero h
  have hne : vlength a ≠ 0 := ne_of_gt hpos
  unfold vnormalize
  rw [if_neg hne, lengthSq_smul]
  rw [div_pow, one_pow, sq, vlength_sq]
  have hLS : lengthSq a ≠ 0 := fun hc => h ((lengthSq_eq_zero_iff a).mp hc)
  field_simp

theorem vlength_setLength {a : Vec3 ℝ} (h : a ≠ vzero) {l : ℝ} (hl : 0 ≤ l) :
    vlength (setLength a l) = l := by
  unfold setLength
  rw [vlength_smul]
  have h1 : vlength (vnormalize a) = 1 := by
    have := vnormalize_lengthSq h
    unfold vlength
    rw [this, Real.sqrt_one]
  rw [h1, abs_of_nonneg hl, mul_one]

theorem quatNormSq_mul (a b : Quat) :
    quatNormSq (quatMul a b) = quatNormSq a * quatNormSq b := by
  unfold quatNormSq quatMul; ring

theorem lengthSq_applyQuaternion (q : Quat) (v : Vec3 ℝ) :
    lengthSq (applyQuaternion v q) = quatNormSq q ^ 2 * lengthSq v := by
  unfold lengthSq applyQuaternion quatNormSq
  ring

theorem quatNormSq_setFromAxisAngle {axis : Vec3 ℝ} (h : lengthSq axis = 1)
    (angle : ℝ) : quatNormSq (setFromAxisAngle axis angle) = 1 := by
  unfold quatNormSq setFromAxisAngle lengthSq at *
  have hs := Real.sin_sq_add_cos_sq (angle / 2)
  nlinarith [hs]

theorem cross_smul_smul (a b : ℝ) (u v : Vec3 ℝ) :
    cross (smul a u) (smul b v) = smul (a * b) (cross u v) := by
  unfold cross smul
  rw [Vec3.ext_iff]
  refine ⟨by ring, by ring, by ring⟩

theorem smul_eq_zero_iff {c : ℝ} {a : Vec3 ℝ} (hc : c ≠ 0) :
    smul c a = vzero ↔ a = vzero := by
  unfold smul vzero
  rw [Vec3.ext_iff, Vec3.ext_iff]
  simp only [mul_eq_zero]
  constructor
  · rintro ⟨hx, hy, hz⟩
    exact ⟨hx.resolve_left hc, hy.resolve_left hc, hz.resolve_left hc⟩
  · rintro ⟨hx, hy, hz⟩
    exact ⟨Or.inr hx, Or.inr hy, Or.inr hz⟩

/-! ### State of the interactive scene (SceneManager fields used by the
pointer handlers) -/

/-- Sensitivity globals of SceneManager (constructor of scene.js). -/
structure Sens where
  rotationBaseSpeed : ℝ
  rotationGain : ℝ
  rotationMinMult : ℝ
  rotationMaxMult : ℝ
  panBase : ℝ
  panGain : ℝ
  panMinMult : ℝ
  panMaxMult : ℝ
  orbitGain : ℝ
  orbitMinMult : ℝ
  orbitMaxMult : ℝ

/-- Default sensitivity values from the SceneManager constructor. -/
noncomputable def defaultSens : Sens :=
  ⟨0.008, 1, 0.3, 3, 0.65, 0.25, 0.35, 1.6, 1, 0.3, 3⟩

/-- Mutable scene state read and written by the pointer handlers: the main
    camera pose (position, up, and viewing direction, the latter modelling
    camera.getWorldDirection and being the quantity set by camera.lookAt),
    the OrbitControls target, the artifact group quaternion, and frustumSize. -/
structure InteractionState where
  camPos : Vec3 ℝ
  camUp : Vec3 ℝ
  camViewDir : Vec3 ℝ
  target : Vec3 ℝ
  modelQuat : Quat
  frustumSize : ℝ

/-- Embedding of getCameraRight in scene.js: up cross forward, normalized,
    where forward is camera.getWorldDirection. -/
noncomputable def getCameraRight (up viewDir : Vec3 ℝ) : Vec3 ℝ :=
  vnormalize (cross up viewDir)

/-- Embedding of the rotate branch of onPointerMove in
    SceneManager._setupQuaternionRotation (appController.js lines 364-381).
    rawDt is the elapsed time now minus lastPointerTime in milliseconds. -/
noncomputable def rotateBranch (p : Sens) (s : InteractionState)
    (dx dy rawDt : ℝ) : InteractionState :=
  let dt := max 1 rawDt
  let rightAxis := getCameraRight s.camUp s.camViewDir
  let upAxis := vnormalize s.camUp
  let speed := Real.sqrt (dx * dx + dy * dy) / dt
  let speedMult :=
    min p.rotationMaxMult (max p.rotationMinMult (1 + speed * p.rotationGain))
  let yawAngle := dx * p.rotationBaseSpeed * speedMult
  let pitchAngle := dy * p.rotationBaseSpeed * speedMult
  let yawQ := setFromAxisAngle upAxis yawAngle
  let pitchQ := setFromAxisAngle rightAxis pitchAngle
  let q := quatMul pitchQ yawQ
  { s with modelQuat := quatMul q s.modelQuat }

/-- Embedding of the pan branch of onPointerMove in
    SceneManager._setupQuaternionRotation (appController.js lines 382-412),
    with controls present.  w and h are the canvas rectangle dimensions. -/
noncomputable def panBranch (p : Sens) (s : InteractionState)
    (dx dy rawDt w h : ℝ) : InteractionState :=
  let dt := max 1 rawDt
  let aspect := w / h
  let worldPerPixelY := s.frustumSize / h
  let worldPerPixelX := s.frustumSize * aspect / w
  let right := getCameraRight s.camUp s.camViewDir
  let up := vnormalize s.camUp
  let speed := Real.sqrt (dx * dx + dy * dy) / dt
  let panMult := min p.panMaxMult (max p.panMinMult (p.panBase + speed * p.panGain))
  let moveX := dx * worldPerPixelX * panMult
  let moveY := dy * worldPerPixelY * panMult
  let panOffset := vadd (smul moveX right) (smul moveY up)
  { s with target := vadd s.target panOffset,
           camPos := vadd s.camPos panOffset }

theorem vsub_vadd_vadd (a b c : Vec3 ℝ) : vsub (vadd a c) (vadd b c) = vsub a b := by
  unfold vsub vadd
  rw [Vec3.ext_iff]
  refine ⟨by ring, by ring, by ring⟩

/-- C2: a rotate-mode pointer move premultiplies the artifact group quaternion
    by pitchQ times yawQ, built from the clamped speed multiplier m, which lies
    in the configured interval whenever rotationMinMult is at most
    rotationMaxMult; the camera position, camera up and controls target are
    untouched by this branch. -/
theorem rotateBranch_spec (p : Sens) (s : InteractionState) (dx dy rawDt : ℝ)
    (hmm : p.rotationMinMult ≤ p.rotationMaxMult) :
    ((rotateBranch p s dx dy rawDt).modelQuat =
      quatMul
        (quatMul
          (setFromAxisAngle (vnormalize (cross s.camUp s.camViewDir))
            (dy * p.rotationBaseSpeed *
              (min p.rotationMaxMult (max p.rotationMinMult
                (1 + Real.sqrt (dx * dx + dy * dy) / max 1 rawDt * p.rotationGain)))))
          (setFromAxisAngle (vnormalize s.camUp)
            (dx * p.rotationBaseSpeed *
              (min p.rotationMaxMult (max p.rotationMinMult
                (1 + Real.sqrt (dx * dx + dy * dy) / max 1 rawDt * p.rotationGain))))))
        s.modelQuat) ∧
    (p.rotationMinMult ≤
        min p.rotationMaxMult (max p.rotationMinMult
          (1 + Real.sqrt (dx * dx + dy * dy) / max 1 rawDt * p.rotationGain)) ∧
      min p.rotationMaxMult (max p.rotationMinMult
          (1 + Real.sqrt (dx * dx + dy * dy) / max 1 rawDt * p.rotationGain)) ≤
        p.rotationMaxMult) ∧
    (rotateBranch p s dx dy rawDt).camPos = s.camPos ∧
    (rotateBranch p s dx dy rawDt).camUp = s.camUp ∧
    (rotateBranch p s dx dy rawDt).target = s.target := by
  refine ⟨rfl, ⟨le_min hmm (le_max_left _ _), min_le_left _ _⟩, rfl, rfl, rfl⟩

/-- Witness for C2 at a concrete state and pointer move. -/
theorem rotateBranch_spec_witness :
    (rotateBranch defaultSens
        ⟨⟨10, 10, 10⟩, ⟨0, 1, 0⟩, ⟨0, 0, -1⟩, vzero, quatOne, 10⟩ 3 4 16).camPos =
      (⟨10, 10, 10⟩ : Vec3 ℝ) :=
  (rotateBranch_spec defaultSens
    ⟨⟨10, 10, 10⟩, ⟨0, 1, 0⟩, ⟨0, 0, -1⟩, vzero, quatOne, 10⟩ 3 4 16
    (by norm_num [defaultSens])).2.2.1

/-- C3: a Shift plus middle-button pan adds the same world-space panOffset to
    both the controls target and the camera position, leaves the vector from
    target to camera unchanged, and does not touch the model quaternion. -/
theorem panBranch_spec (p : Sens) (s : InteractionState) (dx dy rawDt w h : ℝ) :
    ((panBranch p s dx dy rawDt w h).target =
      vadd s.target
        (vadd
          (smul (dx * (s.frustumSize * (w / h) / w) *
              (min p.panMaxMult (max p.panMinMult
                (p.panBase + Real.sqrt (dx * dx + dy * dy) / max 1 rawDt * p.panGain))))
            (getCameraRight s.camUp s.camViewDir))
          (smul (dy * (s.frustumSize / h) *
              (min p.panMaxMult (max p.panMinMult
                (p.panBase + Real.sqrt (dx * dx + dy * dy) / max 1 rawDt * p.panGain))))
            (vnormalize s.camUp)))) ∧
    ((panBranch p s dx dy rawDt w h).camPos =
      vadd s.camPos
        (vadd
          (smul (dx * (s.frustumSize * (w / h) / w) *
              (min p.panMaxMult (max p.panMinMult
                (p.panBase + Real.sqrt (dx * dx + dy * dy) / max 1 rawDt * p.panGain))))
            (getCameraRight s.camUp s.camViewDir))
          (smul (dy * (s.frustumSize / h) *
              (min p.panMaxMult (max p.panMinMult
                (p.panBase + Real.sqrt (dx * dx + dy * dy) / max 1 rawDt * p.panGain))))
            (vnormalize s.camUp)))) ∧
    vsub (panBranch p s dx dy rawDt w h).camPos
        (panBranch p s dx dy rawDt w h).target =
      vsub s.camPos s.target ∧
    (panBranch p s dx dy rawDt w h).modelQuat = s.modelQuat := by
  refine ⟨rfl, rfl, ?_, rfl⟩
  exact vsub_vadd_vadd _ _ _

/-! ### Middle-button trackball camera orbit (C1) -/

theorem cross_vzero_left (v : Vec3 ℝ) : cross vzero v = vzero := by
  unfold cross vzero
  rw [Vec3.ext_iff]
  refine ⟨by ring, by ring, by ring⟩

theorem cross_vzero_right (v : Vec3 ℝ) : cross v vzero = vzero := by
  unfold cross vzero
  rw [Vec3.ext_iff]
  refine ⟨by ring, by ring, by ring⟩

theorem vsub_vadd_cancel (t o : Vec3 ℝ) : vsub (vadd t o) t = o := by
  unfold vsub vadd
  rw [Vec3.ext_iff]
  refine ⟨by ring, by ring, by ring⟩

/-- The scalar by which vnormalize multiplies its argument. -/
noncomputable def vnormalizeCoeff (a : Vec3 ℝ) : ℝ :=
  1 / (if vlength a = 0 then 1 else vlength a)

theorem vnormalize_eq_smul (a : Vec3 ℝ) : vnormalize a = smul (vnormalizeCoeff a) a :=
  rfl

theorem vnormalizeCoeff_ne_zero (a : Vec3 ℝ) : vnormalizeCoeff a ≠ 0 := by
  unfold vnormalizeCoeff
  split
  · norm_num
  · next h => exact one_div_ne_zero h

theorem smul_vzero (c : ℝ) : smul c vzero = vzero := by
  unfold smul vzero
  rw [Vec3.ext_iff]
  norm_num

theorem vlength_vzero : vlength (vzero : Vec3 ℝ) = 0 := by
  unfold vlength
  rw [(lengthSq_eq_zero_iff vzero).mpr rfl, Real.sqrt_zero]

theorem vnormalize_vzero : vnormalize (vzero : Vec3 ℝ) = vzero := by
  unfold vnormalize
  rw [vlength_vzero, if_pos rfl]
  exact smul_vzero _

theorem setLength_vzero (l : ℝ) : setLength vzero l = vzero := by
  unfold setLength
  rw [vnormalize_vzero]
  exact smul_vzero l

theorem applyQuaternion_vzero (q : Quat) : applyQuaternion vzero q = vzero := by
  unfold applyQuaternion vzero
  rw [Vec3.ext_iff]
  refine ⟨by ring, by ring, by ring⟩

/-- Applying a quaternion of nonzero norm to a nonzero vector and then
    re-imposing the original length via setLength yields a vector of exactly
    the original length. -/
theorem vlength_setLength_applyQuaternion {q : Quat} {v : Vec3 ℝ}
    (hq : quatNormSq q ≠ 0) (hv : v ≠ vzero) :
    vlength (setLength (applyQuaternion v q) (vlength v)) = vlength v := by
  have hne : applyQuaternion v q ≠ vzero := by
    intro hc
    have h0 : lengthSq (applyQuaternion v q) = 0 := by
      rw [hc]
      exact (lengthSq_eq_zero_iff vzero).mpr rfl
    rw [lengthSq_applyQuaternion] at h0
    rcases mul_eq_zero.mp h0 with h | h
    · exact hq ((pow_eq_zero_iff (by norm_num : (2 : ℕ) ≠ 0)).mp h)
    · exact hv ((lengthSq_eq_zero_iff v).mp h)
  exact vlength_setLength hne (vlength_nonneg v)

/-- Embedding of onPointerMove in SceneManager._setupCameraQuaternionOrbit
    (appController.js lines 733-800): the VTK-style trackball orbit performed
    by a middle-button drag without Shift, Ctrl or Alt.  The camera look-at is
    modelled by its effect on the viewing direction. -/
noncomputable def orbitMove (p : Sens) (s : InteractionState)
    (dx dy rawDt w h : ℝ) : InteractionState :=
  let dt := max 1 rawDt
  let baseAzimuth := -100 * (dx / w)
  let baseElevation := -100 * (dy / h)
  let speed := Real.sqrt (dx * dx + dy * dy) / dt
  let mult := min p.orbitMaxMult (max p.orbitMinMult (1 + speed * p.orbitGain))
  let deltaAzimuth := baseAzimuth * mult
  let deltaElevation := baseElevation * mult
  let target := s.target
  let offset := vsub s.camPos target
  let distance := vlength offset
  let viewUp := vnormalize s.camUp
  let forward := vnormalize offset
  let azimuthQuat := setFromAxisAngle viewUp (deltaAzimuth * Real.pi / 180)
  let right := vnormalize (cross viewUp forward)
  let elevationQuat := setFromAxisAngle right (deltaElevation * Real.pi / 180)
  let combinedQuat := quatMul elevationQuat azimuthQuat
  let offset2 := applyQuaternion offset combinedQuat
  let newUp := applyQuaternion viewUp elevationQuat
  let offset3 := setLength offset2 distance
  let newPos := vadd target offset3
  { s with camPos := newPos,
           camUp := newUp,
           camViewDir := vnormalize (vsub target newPos) }

/-- The combined trackball rotation quaternion, elevationQuat times
    azimuthQuat, computed by the orbit pointer-move handler (appController.js
    lines 771-784). -/
noncomputable def orbitCombinedQuat (p : Sens) (s : InteractionState)
    (dx dy rawDt w h : ℝ) : Quat :=
  let dt := max 1 rawDt
  let baseAzimuth := -100 * (dx / w)
  let baseElevation := -100 * (dy / h)
  let speed := Real.sqrt (dx * dx + dy * dy) / dt
  let mult := min p.orbitMaxMult (max p.orbitMinMult (1 + speed * p.orbitGain))
  let deltaAzimuth := baseAzimuth * mult
  let deltaElevation := baseElevation * mult
  let offset := vsub s.camPos s.target
  let viewUp := vnormalize s.camUp
  let forward := vnormalize offset
  let azimuthQuat := setFromAxisAngle viewUp (deltaAzimuth * Real.pi / 180)
  let right := vnormalize (cross viewUp forward)
  let elevationQuat := setFromAxisAngle right (deltaElevation * Real.pi / 180)
  quatMul elevationQuat azimuthQuat

/-- In every nondegenerate pose, camera up not parallel to the view offset,
    the combined trackball quaternion is unit whatever the drag deltas. -/
theorem orbitCombinedQuat_normSq_one (p : Sens) (s : InteractionState)
    (dx dy rawDt w h : ℝ)
    (hnd : cross s.camUp (vsub s.camPos s.target) ≠ vzero) :
    quatNormSq (orbitCombinedQuat p s dx dy rawDt w h) = 1 := by
  have hup : s.camUp ≠ vzero := by
    intro hc
    apply hnd
    rw [hc]
    exact cross_vzero_left _
  have hoff : vsub s.camPos s.target ≠ vzero := by
    intro hc
    apply hnd
    rw [hc]
    exact cross_vzero_right _
  have hcross2 : cross (vnormalize s.camUp) (vnormalize (vsub s.camPos s.target)) ≠ vzero := by
    rw [vnormalize_eq_smul s.camUp, vnormalize_eq_smul (vsub s.camPos s.target),
      cross_smul_smul]
    intro hc
    rw [smul_eq_zero_iff
      (mul_ne_zero (vnormalizeCoeff_ne_zero _) (vnormalizeCoeff_ne_zero _))] at hc
    exact hnd hc
  have hupSq : lengthSq (vnormalize s.camUp) = 1 := vnormalize_lengthSq hup
  have hrightSq : lengthSq (vnormalize
      (cross (vnormalize s.camUp) (vnormalize (vsub s.camPos s.target)))) = 1 :=
    vnormalize_lengthSq hcross2
  simp only [orbitCombinedQuat]
  rw [quatNormSq_mul, quatNormSq_setFromAxisAngle hrightSq,
    quatNormSq_setFromAxisAngle hupSq, one_mul]

/-- C1: a middle-button trackball orbit pointer move preserves the distance
    from the camera position to the orbit target and re-aims the camera at
    the target (lookAt target); the target itself is unchanged.  The single
    hypothesis asks the combined rotation quaternion to have nonzero norm.
    This holds for every pose, parallel and zero camera-up poses included,
    and every drag except the exact-real idealization point where the cosine
    of a half-angle is exactly zero at the same time as its rotation axis has
    degenerated to the zero vector; the floating-point cosine computed by the
    program is never exactly zero, so every step the program executes
    satisfies the hypothesis. -/
theorem orbitMove_preserves_distance (p : Sens) (s : InteractionState)
    (dx dy rawDt w h : ℝ)
    (hqn : quatNormSq (orbitCombinedQuat p s dx dy rawDt w h) ≠ 0) :
    vlength (vsub (orbitMove p s dx dy rawDt w h).camPos
        (orbitMove p s dx dy rawDt w h).target) =
      vlength (vsub s.camPos s.target) ∧
    (orbitMove p s dx dy rawDt w h).target = s.target ∧
    (orbitMove p s dx dy rawDt w h).camViewDir =
      vnormalize (vsub (orbitMove p s dx dy rawDt w h).target
        (orbitMove p s dx dy rawDt w h).camPos) := by
  refine ⟨?_, rfl, rfl⟩
  show vlength (vsub (vadd s.target
      (setLength
        (applyQuaternion (vsub s.camPos s.target)
          (orbitCombinedQuat p s dx dy rawDt w h))
        (vlength (vsub s.camPos s.target)))) s.target) =
    vlength (vsub s.camPos s.target)
  rw [vsub_vadd_cancel]
  by_cases hoff : vsub s.camPos s.target = vzero
  · rw [hoff, applyQuaternion_vzero, setLength_vzero]
  · exact vlength_setLength_applyQuaternion hqn hoff

/-- Example camera pose looking at the origin from the x axis. -/
noncomputable def sideViewState : InteractionState :=
  ⟨⟨10, 0, 0⟩, ⟨0, 1, 0⟩, ⟨-1, 0, 0⟩, vzero, quatOne, 10⟩

/-- Witness for C1 at a concrete camera pose and drag: the nonzero-norm
    hypothesis is discharged by computing that the combined quaternion is
    unit there. -/
theorem orbitMove_preserves_distance_witness :
    (orbitMove defaultSens sideViewState 1 2 16 800 600).target =
      sideViewState.target :=
  (orbitMove_preserves_distance defaultSens sideViewState 1 2 16 800 600
    (by
      rw [orbitCombinedQuat_normSq_one defaultSens sideViewState 1 2 16 800 600
        (by
          simp only [sideViewState, cross, vsub, vzero, Vec3.ext_iff]
          norm_num)]
      norm_num)).2.1

theorem Quat.ext_iff2 {a b : Quat} :
    a = b ↔ a.x = b.x ∧ a.y = b.y ∧ a.z = b.z ∧ a.w = b.w := by
  cases a; cases b; simp [Quat.mk.injEq]

/-! ### Axes widget synchronization (C4, axesActor.js) -/

/-- State of the AxesActor widget: its private orthographic camera pose and
    the quaternion of its axes group. -/
structure AxesWidget where
  camPos : Vec3 ℝ
  camUp : Vec3 ℝ
  camViewDir : Vec3 ℝ
  axesQuat : Quat

/-- The target argument of AxesActor.syncWithCamera: either a plain vector or
    an Object3D, abstracted by its world quaternion. -/
inductive SyncTarget where
  | vec3 (v : Vec3 ℝ)
  | object3D (worldQuat : Quat)

/-- Embedding of AxesActor.syncWithCamera (axesActor.js lines 165-210);
    camWorldQuat is the main camera world quaternion read by
    getWorldQuaternion, and the widget camera look-at is modelled by its
    effect on the viewing direction. -/
noncomputable def syncWithCamera (camPos camUp : Vec3 ℝ) (camWorldQuat : Quat)
    (t : SyncTarget) (w : AxesWidget) : AxesWidget :=
  match t with
  | .object3D qModel =>
      let qAxes := quatMul (quatInvert camWorldQuat) qModel
      let pos : Vec3 ℝ := ⟨2, 2, 2⟩
      { w with axesQuat := qAxes,
               camPos := pos,
               camUp := camUp,
               camViewDir := vnormalize (vsub vzero pos) }
  | .vec3 v =>
      let direction := vnormalize (vsub camPos v)
      let pos := smul 3 direction
      { w with camPos := pos,
               camUp := camUp,
               camViewDir := vnormalize (vsub vzero pos),
               axesQuat := quatOne }

/-- Embedding of the axes update inside the animate loop of
    SceneManager._setupSelectionAndLoop (appController.js lines 697-702), with
    controls present: the widget is synced against the controls target, which
    is a plain vector. -/
noncomputable def animateFrameWidget (s : InteractionState) (camWorldQuat : Quat)
    (w : AxesWidget) : AxesWidget :=
  syncWithCamera s.camPos s.camUp camWorldQuat (SyncTarget.vec3 s.target) w

/-- C4: every rendered frame syncs the widget via syncWithCamera with the
    controls target; the plain-vector branch places the widget camera at
    3 times the normalized camera-to-target direction, copies the up vector
    and resets the axes-group quaternion to the identity; the Object3D branch
    sets the axes-group quaternion to the inverse (conjugate) of the camera
    world quaternion times the model world quaternion, where the conjugate is
    a genuine inverse whenever the camera quaternion is unit. -/
theorem syncWithCamera_spec (s : InteractionState) (camPos camUp v : Vec3 ℝ)
    (qCam qModel : Quat) (w : AxesWidget) (hq : quatNormSq qCam = 1) :
    animateFrameWidget s qCam w =
      syncWithCamera s.camPos s.camUp qCam (SyncTarget.vec3 s.target) w ∧
    (syncWithCamera camPos camUp qCam (SyncTarget.vec3 v) w).camPos =
      smul 3 (vnormalize (vsub camPos v)) ∧
    (syncWithCamera camPos camUp qCam (SyncTarget.vec3 v) w).camUp = camUp ∧
    (syncWithCamera camPos camUp qCam (SyncTarget.vec3 v) w).axesQuat = quatOne ∧
    (syncWithCamera camPos camUp qCam (SyncTarget.object3D qModel) w).axesQuat =
      quatMul (quatInvert qCam) qModel ∧
    quatMul (quatInvert qCam) qCam = quatOne := by
  refine ⟨rfl, rfl, rfl, rfl, rfl, ?_⟩
  unfold quatInvert quatConj quatMul quatOne
  unfold quatNormSq at hq
  rw [Quat.ext_iff2]
  refine ⟨by ring, by ring, by ring, ?_⟩
  show qCam.w * qCam.w - -qCam.x * qCam.x - -qCam.y * qCam.y - -qCam.z * qCam.z = 1
  linear_combination hq

/-- Witness for C4 at a concrete camera, target and widget state. -/
theorem syncWithCamera_spec_witness :
    quatMul (quatInvert quatOne) quatOne = quatOne :=
  (syncWithCamera_spec sideViewState ⟨1, 2, 3⟩ ⟨0, 1, 0⟩ vzero quatOne quatOne
    ⟨⟨2, 2, 2⟩, ⟨0, 1, 0⟩, ⟨0, 0, -1⟩, quatOne⟩
    (by unfold quatNormSq quatOne; norm_num)).2.2.2.2.2

/-! ### SceneManager view helpers (C5, C9) -/

/-- Orthographic camera state touched by fitModelToView and setPresetView. -/
structure OrthoCam where
  left : ℝ
  right : ℝ
  top : ℝ
  bottom : ℝ
  position : Vec3 ℝ
  up : Vec3 ℝ
  viewDir : Vec3 ℝ

/-- An axis-aligned bounding box (THREE.Box3); fitModelToView abstracts its
    object argument by the box computed via setFromObject. -/
structure Box3 where
  min : Vec3 ℝ
  max : Vec3 ℝ

/-- Embedding of THREE.Box3.getCenter: min plus max, halved. -/
noncomputable def boxCenter (b : Box3) : Vec3 ℝ := smul 0.5 (vadd b.min b.max)

/-- Embedding of THREE.Box3.getSize: max minus min. -/
def boxSize (b : Box3) : Vec3 ℝ := vsub b.max b.min

/-- Math.max over the three components of a size vector. -/
noncomputable def maxDim3 (v : Vec3 ℝ) : ℝ := max v.x (max v.y v.z)

/-- SceneManager state visible to fitModelToView and setPresetView: the
    camera (possibly not yet initialized), the controls target and
    frustumSize. -/
structure SceneMgrState where
  camera : Option OrthoCam
  target : Vec3 ℝ
  frustumSize : ℝ

/-- Embedding of SceneManager.fitModelToView (appController.js lines
    126-150).  The object argument is abstracted by its bounding box; aspect
    is window.innerWidth over window.innerHeight. -/
noncomputable def fitModelToView (s : SceneMgrState) (obj : Option Box3)
    (padding aspect : ℝ) : SceneMgrState :=
  match obj, s.camera with
  | none, _ => s
  | some _, none => s
  | some box, some cam =>
      let center := boxCenter box
      let size := boxSize box
      let maxDim := maxDim3 size
      let fs := max 1e-6 (maxDim * padding)
      let distance := maxDim * 2.5 + 1
      let isoDir := vnormalize ⟨1, 1, 1⟩
      { s with
        frustumSize := fs,
        camera := some { cam with
          left := -fs * aspect / 2,
          right := fs * aspect / 2,
          top := fs / 2,
          bottom := -fs / 2,
          position := vadd center (smul distance isoDir),
          up := ⟨0, 1, 0⟩ },
        target := center }

/-- C5: fitModelToView configures the symmetric orthographic frustum from
    max(1e-6, maxDim times padding), places the camera at the box center plus
    the isometric unit direction scaled by maxDim times 2.5 plus 1, resets the
    up vector, and retargets the controls at the center; a missing object or
    camera leaves the state unchanged. -/
theorem fitModelToView_spec (s : SceneMgrState) (box : Box3) (p aspect : ℝ) :
    fitModelToView s none p aspect = s ∧
    (s.camera = none → ∀ ob, fitModelToView s ob p aspect = s) ∧
    (∀ cam, s.camera = some cam →
      fitModelToView s (some box) p aspect =
        { camera := some
            { left := -(max 1e-6 (maxDim3 (boxSize box) * p)) * aspect / 2,
              right := max 1e-6 (maxDim3 (boxSize box) * p) * aspect / 2,
              top := max 1e-6 (maxDim3 (boxSize box) * p) / 2,
              bottom := -(max 1e-6 (maxDim3 (boxSize box) * p)) / 2,
              position := vadd (boxCenter box)
                (smul (maxDim3 (boxSize box) * 2.5 + 1) (vnormalize ⟨1, 1, 1⟩)),
              up := ⟨0, 1, 0⟩,
              viewDir := cam.viewDir },
          target := boxCenter box,
          frustumSize := max 1e-6 (maxDim3 (boxSize box) * p) }) := by
  refine ⟨rfl, ?_, ?_⟩
  · intro hnone ob
    cases ob with
    | none => rfl
    | some b => simp [fitModelToView, hnone]
  · intro cam hcam
    simp [fitModelToView, hcam]

/-- Example camera used to instantiate the SceneManager theorems. -/
noncomputable def camExample : OrthoCam :=
  ⟨-5, 5, 5, -5, ⟨10, 10, 10⟩, ⟨0, 1, 0⟩, ⟨0, 0, -1⟩⟩

/-- Example SceneManager state with an initialized camera. -/
noncomputable def mgrExample : SceneMgrState := ⟨some camExample, vzero, 10⟩

/-- Witness for C5 at a concrete state and box. -/
theorem fitModelToView_spec_witness :
    (fitModelToView mgrExample (some ⟨⟨0, 0, 0⟩, ⟨2, 4, 6⟩⟩) 1.2 2).target =
      boxCenter ⟨⟨0, 0, 0⟩, ⟨2, 4, 6⟩⟩ := by
  have h := (fitModelToView_spec mgrExample ⟨⟨0, 0, 0⟩, ⟨2, 4, 6⟩⟩ 1.2 2).2.2
    camExample rfl
  rw [h]

/-- Direction-times-distance vector chosen by the switch in
    SceneManager.setPresetView (appController.js lines 872-882) for a known
    preset id, none for the default branch. -/
noncomputable def presetPos (id : String) : Option (Vec3 ℝ) :=
  match id with
  | "isometric" => some (smul 10 (vnormalize ⟨1, 1, 1⟩))
  | "front" => some (smul 10 ⟨0, 0, 1⟩)
  | "back" => some (smul 10 ⟨0, 0, -1⟩)
  | "left" => some (smul 10 ⟨-1, 0, 0⟩)
  | "right" => some (smul 10 ⟨1, 0, 0⟩)
  | "top" => some (smul 10 ⟨0, 1, 0⟩)
  | "bottom" => some (smul 10 ⟨0, -1, 0⟩)
  | _ => none

/-- The seven preset view identifiers. -/
def presetIds : List String :=
  ["isometric", "front", "back", "left", "right", "top", "bottom"]

theorem presetPos_of_not_mem (id : String) (h : id ∉ presetIds) :
    presetPos id = none := by
  unfold presetPos
  split
  · exact absurd (by simp [presetIds]) h
  · exact absurd (by simp [presetIds]) h
  · exact absurd (by simp [presetIds]) h
  · exact absurd (by simp [presetIds]) h
  · exact absurd (by simp [presetIds]) h
  · exact absurd (by simp [presetIds]) h
  · exact absurd (by simp [presetIds]) h
  · rfl

/-- Embedding of SceneManager.setPresetView (appController.js lines 861-886)
    in its default configuration: no global setPresetViewQuaternion override
    is installed and the object argument is null, so the center is the current
    controls target. -/
noncomputable def setPresetView (s : SceneMgrState) (id : String) : SceneMgrState :=
  match s.camera with
  | none => s
  | some cam =>
      let center := s.target
      match presetPos id with
      | none => s
      | some pos =>
          { s with
            camera := some { cam with position := vadd center pos, up := ⟨0, 1, 0⟩ },
            target := center }

/-- C9: setPresetView leaves the state unchanged for every id outside the
    seven presets, and for each known id moves the camera to center plus 10
    times the corresponding unit direction, resets the up vector to (0,1,0),
    and sets the controls target to the center. -/
theorem setPresetView_spec (cam : OrthoCam) (tgt : Vec3 ℝ) (fs : ℝ) :
    (∀ id, id ∉ presetIds →
      setPresetView ⟨some cam, tgt, fs⟩ id = ⟨some cam, tgt, fs⟩) ∧
    setPresetView ⟨some cam, tgt, fs⟩ "isometric" =
      { camera := some { cam with
          position := vadd tgt (smul 10 (vnormalize ⟨1, 1, 1⟩)), up := ⟨0, 1, 0⟩ },
        target := tgt, frustumSize := fs } ∧
    setPresetView ⟨some cam, tgt, fs⟩ "front" =
      { camera := some { cam with
          position := vadd tgt (smul 10 ⟨0, 0, 1⟩), up := ⟨0, 1, 0⟩ },
        target := tgt, frustumSize := fs } ∧
    setPresetView ⟨some cam, tgt, fs⟩ "back" =
      { camera := some { cam with
          position := vadd tgt (smul 10 ⟨0, 0, -1⟩), up := ⟨0, 1, 0⟩ },
        target := tgt, frustumSize := fs } ∧
    setPresetView ⟨some cam, tgt, fs⟩ "left" =
      { camera := some { cam with
          position := vadd tgt (smul 10 ⟨-1, 0, 0⟩), up := ⟨0, 1, 0⟩ },
        target := tgt, frustumSize := fs } ∧
    setPresetView ⟨some cam, tgt, fs⟩ "right" =
      { camera := some { cam with
          position := vadd tgt (smul 10 ⟨1, 0, 0⟩), up := ⟨0, 1, 0⟩ },
        target := tgt, frustumSize := fs } ∧
    setPresetView ⟨some cam, tgt, fs⟩ "top" =
      { camera := some { cam with
          position := vadd tgt (smul 10 ⟨0, 1, 0⟩), up := ⟨0, 1, 0⟩ },
        target := tgt, frustumSize := fs } ∧
    setPresetView ⟨some cam, tgt, fs⟩ "bottom" =
      { camera := some { cam with
          position := vadd tgt (smul 10 ⟨0, -1, 0⟩), up := ⟨0, 1, 0⟩ },
        target := tgt, frustumSize := fs } := by
  refine ⟨?_, rfl, rfl, rfl, rfl, rfl, rfl, rfl⟩
  intro id hid
  unfold setPresetView
  rw [presetPos_of_not_mem id hid]

/-- Witness for C9 at a concrete camera state and the unknown id zzz. -/
theorem setPresetView_spec_witness :
    setPresetView ⟨some camExample, vzero, 10⟩ "zzz" =
      ⟨some camExample, vzero, 10⟩ :=
  (setPresetView_spec camExample vzero 10).1 "zzz" (by decide)

/-! ### Visual style switching (C6) -/

/-- The core mesh material as seen by setVisualStyle: its wireframe flag. -/
structure CoreMat where
  wireframe : Bool
deriving DecidableEq

/-- The edges overlay group built by rebuildEdges: group visibility and the
    visibilities of the hidden-edge and visible-edge line segments. -/
structure EdgesState where
  visible : Bool
  hiddenVisible : Bool
  visibleVisible : Bool
deriving DecidableEq

/-- SceneManager state seen by setVisualStyle and getVisualStyle: the stored
    style string, the optional core mesh material, and the optional edges
    overlay.  The empty string models a falsy stored style. -/
structure VisState where
  style : String
  core : Option CoreMat
  edges : Option EdgesState
deriving DecidableEq

/-- The switch body of SceneManager.setVisualStyle (appController.js lines
    586-612), acting on the stored style, the core material and the edges
    overlay. -/
def applyStyleSwitch (st : String) (c : CoreMat) (edges : Option EdgesState) :
    CoreMat × Option EdgesState :=
  match st with
  | "wireframe" =>
      ({ c with wireframe := true },
       edges.map fun e => { e with visible := false })
  | "shaded-edge" =>
      ({ c with wireframe := false },
       edges.map fun e =>
        { e with visible := true, hiddenVisible := false, visibleVisible := true })
  | "shaded-hidden" =>
      ({ c with wireframe := false },
       edges.map fun e =>
        { e with visible := true, hiddenVisible := true, visibleVisible := true })
  | _ =>
      ({ c with wireframe := false },
       edges.map fun e => { e with visible := false })

/-- Embedding of SceneManager.setVisualStyle (appController.js lines
    582-614): the stored style becomes the argument or shaded when falsy;
    with no core mesh nothing else changes; otherwise the switch runs on the
    stored style. -/
def setVisualStyle (s : VisState) (style : String) : VisState :=
  let st := if style = "" then "shaded" else style
  match s.core with
  | none => { s with style := st }
  | some c =>
      let r := applyStyleSwitch st c s.edges
      { style := st, core := some r.1, edges := r.2 }

/-- Embedding of SceneManager.getVisualStyle: the stored style, or shaded
    when it is falsy. -/
def getVisualStyle (s : VisState) : String :=
  if s.style = "" then "shaded" else s.style

theorem applyStyleSwitch_default (st : String)
    (h : st ∉ (["wireframe", "shaded-edge", "shaded-hidden"] : List String))
    (c : CoreMat) (edges : Option EdgesState) :
    applyStyleSwitch st c edges =
      ({ c with wireframe := false },
       edges.map fun e => { e with visible := false }) := by
  unfold applyStyleSwitch
  split
  · exact absurd (by simp) h
  · exact absurd (by simp) h
  · exact absurd (by simp) h
  · rfl

/-- C6: setVisualStyle acts as a four-state switch on a loaded model with an
    edges overlay, and getVisualStyle returns the style just set whenever it
    is truthy and shaded when the stored style is falsy. -/
theorem setVisualStyle_spec (st : String) (c : CoreMat) (e : EdgesState)
    (s : String) (hs : s ≠ "") :
    getVisualStyle (setVisualStyle ⟨st, some c, some e⟩ s) = s ∧
    setVisualStyle ⟨st, some c, some e⟩ "wireframe" =
      ⟨"wireframe", some ⟨true⟩,
        some ⟨false, e.hiddenVisible, e.visibleVisible⟩⟩ ∧
    setVisualStyle ⟨st, some c, some e⟩ "shaded-edge" =
      ⟨"shaded-edge", some ⟨false⟩, some ⟨true, false, true⟩⟩ ∧
    setVisualStyle ⟨st, some c, some e⟩ "shaded-hidden" =
      ⟨"shaded-hidden", some ⟨false⟩, some ⟨true, true, true⟩⟩ ∧
    setVisualStyle ⟨st, some c, some e⟩ "shaded" =
      ⟨"shaded", some ⟨false⟩,
        some ⟨false, e.hiddenVisible, e.visibleVisible⟩⟩ ∧
    (∀ v, v ∉ (["wireframe", "shaded-edge", "shaded-hidden"] : List String) →
      v ≠ "" →
      setVisualStyle ⟨st, some c, some e⟩ v =
        ⟨v, some ⟨false⟩, some ⟨false, e.hiddenVisible, e.visibleVisible⟩⟩) ∧
    (∀ t : VisState, t.style = "" → getVisualStyle t = "shaded") := by
  refine ⟨?_, rfl, rfl, rfl, rfl, ?_, ?_⟩
  · unfold setVisualStyle getVisualStyle
    simp only [if_neg hs]
  · intro v hv hvne
    unfold setVisualStyle
    simp only [if_neg hvne]
    rw [applyStyleSwitch_default v hv]
    simp [Option.map]
  · intro t ht
    unfold getVisualStyle
    rw [if_pos ht]

/-- Witness for C6 at a concrete state and a concrete truthy style. -/
theorem setVisualStyle_spec_witness :
    getVisualStyle (setVisualStyle ⟨"shaded", some ⟨false⟩, some ⟨true, false, true⟩⟩
        "wireframe") = "wireframe" :=
  (setVisualStyle_spec "shaded" ⟨false⟩ ⟨true, false, true⟩ "wireframe"
    (by decide)).1

/-! ### Model rotation by degrees (C7) -/

/-- The axis argument of SceneManager.rotateModelByDegrees: either a
    THREE.Vector3 or an axis name string. -/
inductive AxisArg where
  | vec (v : Vec3 ℝ)
  | name (s : String)

/-- Resolution of axisLocal in rotateModelByDegrees (appController.js lines
    936-945): a vector argument is normalized, a name is lowercased and mapped
    to the unit x, z or (default) y axis. -/
noncomputable def axisLocalOf (axis : AxisArg) : Vec3 ℝ :=
  match axis with
  | .vec v => vnormalize v
  | .name s =>
      match s.toLower with
      | "x" => ⟨1, 0, 0⟩
      | "z" => ⟨0, 0, 1⟩
      | _ => ⟨0, 1, 0⟩

/-- Resolution of axisWorld in rotateModelByDegrees (appController.js lines
    947-971), depending on the requested space, the camera (for view space)
    and the current model quaternion (for local space). -/
noncomputable def axisWorldOf (space : String) (axis : AxisArg)
    (cam : Option OrthoCam) (groupQuat : Quat) : Vec3 ℝ :=
  if space = "view" ∧ cam.isSome then
    match cam with
    | some c =>
        (match axis with
         | .vec v => vnormalize v
         | .name s =>
             if s.toLower = "x" then vnormalize (cross c.viewDir c.up)
             else if s.toLower = "z" then vnormalize c.viewDir
             else vnormalize c.up)
    | none => vnormalize (axisLocalOf axis)
  else if space = "world" then vnormalize (axisLocalOf axis)
  else if space = "local" then
    vnormalize (applyQuaternion (axisLocalOf axis) groupQuat)
  else vnormalize (axisLocalOf axis)

/-- Embedding of the immediate path of SceneManager.rotateModelByDegrees
    (duration at most 0, appController.js lines 975-986): the rotation
    quaternion is multiplied on the right of the group quaternion in local
    space and premultiplied otherwise. -/
noncomputable def rotateImmediate (groupQuat : Quat) (degrees : ℝ)
    (axis : AxisArg) (space : String) (cam : Option OrthoCam) : Quat :=
  let axisWorld := axisWorldOf space axis cam groupQuat
  let totalAngle := degrees * Real.pi / 180
  let rotQ := setFromAxisAngle axisWorld totalAngle
  if space = "local" then quatMul groupQuat rotQ else quatMul rotQ groupQuat

/-- Embedding of the final quaternion of the animated path of
    SceneManager.rotateModelByDegrees (duration positive, run to completion
    without cancellation, appController.js lines 988-1018): the slerp
    animation snaps to the precomputed end quaternion when it finishes, so
    only that end value is modelled. -/
noncomputable def rotateAnimatedFinal (groupQuat : Quat) (degrees : ℝ)
    (axis : AxisArg) (space : String) (cam : Option OrthoCam) : Quat :=
  let axisWorld := axisWorldOf space axis cam groupQuat
  let totalAngle := degrees * Real.pi / 180
  let startQ := groupQuat
  let rotQForEnd := setFromAxisAngle axisWorld totalAngle
  if space = "local" then quatMul startQ rotQForEnd
  else quatMul rotQForEnd startQ

/-- C7: for world and local space the completed animated rotation produces
    exactly the final quaternion of the immediate path, namely rotQ times q0
    in world space and q0 times rotQ in local space, with rotQ the axis-angle
    quaternion of degrees times pi over 180 about the resolved world axis
    (the named axis transformed by q0 and normalized in local space). -/
theorem rotateModel_animated_eq_immediate (q0 : Quat) (degrees : ℝ)
    (axis : AxisArg) (space : String) (cam : Option OrthoCam)
    (hspace : space = "world" ∨ space = "local") :
    rotateAnimatedFinal q0 degrees axis space cam =
      rotateImmediate q0 degrees axis space cam ∧
    (space = "world" → rotateImmediate q0 degrees axis space cam =
      quatMul
        (setFromAxisAngle (vnormalize (axisLocalOf axis))
          (degrees * Real.pi / 180)) q0) ∧
    (space = "local" → rotateImmediate q0 degrees axis space cam =
      quatMul q0
        (setFromAxisAngle
          (vnormalize (applyQuaternion (axisLocalOf axis) q0))
          (degrees * Real.pi / 180))) := by
  refine ⟨rfl, ?_, ?_⟩
  · intro h
    subst h
    rfl
  · intro h
    subst h
    rfl

/-- Witness for C7 at a concrete rotation request in world space. -/
theorem rotateModel_animated_eq_immediate_witness :
    rotateAnimatedFinal quatOne 90 (AxisArg.name "y") "world" none =
      rotateImmediate quatOne 90 (AxisArg.name "y") "world" none :=
  (rotateModel_animated_eq_immediate quatOne 90 (AxisArg.name "y") "world" none
    (Or.inl rfl)).1

/-! ### STL model loading (C8) -/

/-- Componentwise minimum of two points (THREE.Box3 expandByPoint).  The STL
    geometry claims are stated over the rationals, which the witness states
    can evaluate. -/
def vmin (a b : Vec3 ℚ) : Vec3 ℚ := ⟨min a.x b.x, min a.y b.y, min a.z b.z⟩

/-- Componentwise maximum of two points (THREE.Box3 expandByPoint). -/
def vmax (a b : Vec3 ℚ) : Vec3 ℚ := ⟨max a.x b.x, max a.y b.y, max a.z b.z⟩

/-- Minimum corner of the bounding box of a nonempty vertex list
    (BufferGeometry.computeBoundingBox). -/
def bboxMin (v : Vec3 ℚ) (l : List (Vec3 ℚ)) : Vec3 ℚ := l.foldl vmin v

/-- Maximum corner of the bounding box of a nonempty vertex list. -/
def bboxMax (v : Vec3 ℚ) (l : List (Vec3 ℚ)) : Vec3 ℚ := l.foldl vmax v

/-- Componentwise order on points. -/
def vle (a b : Vec3 ℚ) : Prop := a.x ≤ b.x ∧ a.y ≤ b.y ∧ a.z ≤ b.z

theorem vle_refl (a : Vec3 ℚ) : vle a a := ⟨le_refl _, le_refl _, le_refl _⟩

theorem vle_trans {a b c : Vec3 ℚ} (h1 : vle a b) (h2 : vle b c) : vle a c :=
  ⟨le_trans h1.1 h2.1, le_trans h1.2.1 h2.2.1, le_trans h1.2.2 h2.2.2⟩

theorem vmin_vle_left (a b : Vec3 ℚ) : vle (vmin a b) a :=
  ⟨min_le_left _ _, min_le_left _ _, min_le_left _ _⟩

theorem vle_vmax_left (a b : Vec3 ℚ) : vle a (vmax a b) :=
  ⟨le_max_left _ _, le_max_left _ _, le_max_left _ _⟩

theorem bboxMin_vle_seed (l : List (Vec3 ℚ)) : ∀ v, vle (bboxMin v l) v := by
  induction l with
  | nil => intro v; exact vle_refl v
  | cons x xs ih =>
      intro v
      exact vle_trans (ih (vmin v x)) (vmin_vle_left v x)

theorem seed_vle_bboxMax (l : List (Vec3 ℚ)) : ∀ v, vle v (bboxMax v l) := by
  induction l with
  | nil => intro v; exact vle_refl v
  | cons x xs ih =>
      intro v
      exact vle_trans (vle_vmax_left v x) (ih (vmax v x))

theorem bboxMin_vle_bboxMax (v : Vec3 ℚ) (l : List (Vec3 ℚ)) :
    vle (bboxMin v l) (bboxMax v l) :=
  vle_trans (bboxMin_vle_seed l v) (seed_vle_bboxMax l v)

theorem foldl_vmin_map (f : Vec3 ℚ → Vec3 ℚ)
    (hf : ∀ a b, vmin (f a) (f b) = f (vmin a b)) (l : List (Vec3 ℚ)) :
    ∀ v, (l.map f).foldl vmin (f v) = f (l.foldl vmin v) := by
  induction l with
  | nil => intro v; rfl
  | cons x xs ih =>
      intro v
      show (xs.map f).foldl vmin (vmin (f v) (f x)) = f ((x :: xs).foldl vmin v)
      rw [hf v x]
      exact ih (vmin v x)

theorem foldl_vmax_map (f : Vec3 ℚ → Vec3 ℚ)
    (hf : ∀ a b, vmax (f a) (f b) = f (vmax a b)) (l : List (Vec3 ℚ)) :
    ∀ v, (l.map f).foldl vmax (f v) = f (l.foldl vmax v) := by
  induction l with
  | nil => intro v; rfl
  | cons x xs ih =>
      intro v
      show (xs.map f).foldl vmax (vmax (f v) (f x)) = f ((x :: xs).foldl vmax v)
      rw [hf v x]
      exact ih (vmax v x)

theorem vmin_affine (k : ℚ) (c : Vec3 ℚ) (hk : 0 ≤ k) (a b : Vec3 ℚ) :
    vmin (smul k (vsub a c)) (smul k (vsub b c)) = smul k (vsub (vmin a b) c) := by
  simp only [vmin, smul, vsub, Vec3.ext_iff]
  refine ⟨?_, ?_, ?_⟩ <;>
    rw [← mul_min_of_nonneg _ _ hk, min_sub_sub_right]

theorem vmax_affine (k : ℚ) (c : Vec3 ℚ) (hk : 0 ≤ k) (a b : Vec3 ℚ) :
    vmax (smul k (vsub a c)) (smul k (vsub b c)) = smul k (vsub (vmax a b) c) := by
  simp only [vmax, smul, vsub, Vec3.ext_iff]
  refine ⟨?_, ?_, ?_⟩ <;>
    rw [← mul_max_of_nonneg _ _ hk, max_sub_sub_right]

/-- A scene-graph node in the artifact group: its identity and whether it is
    a core mesh created by the STL loader (the edge overlay groups are not). -/
structure Mesh where
  id : ℕ
  isCore : Bool
deriving DecidableEq

/-- Loader-visible SceneManager state: the children of the artifact group,
    the current core mesh and its (scaled) vertex list, the edges overlay
    group, the ids of disposed geometries, and a fresh-id counter standing
    for object identity of newly constructed THREE objects. -/
structure LoaderState where
  group : List Mesh
  core : Option Mesh
  coreGeom : List (Vec3 ℚ)
  edges : Option Mesh
  disposed : List ℕ
  nextId : ℕ
deriving DecidableEq

/-- Invariant tying the artifact group to the core mesh: distinct children,
    every core mesh in the group is the current core, the current core is
    marked as core, ids are below the fresh counter, and the edges overlay is
    not a core mesh. -/
def coreInv (s : LoaderState) : Prop :=
  s.group.Nodup ∧
  (∀ m ∈ s.group, m.isCore = true → s.core = some m) ∧
  (match s.core with
   | some c => c.isCore = true ∧ c.id < s.nextId
   | none => True) ∧
  (∀ m ∈ s.group, m.id < s.nextId) ∧
  (match s.edges with
   | some e => e.isCore = false ∧ e.id < s.nextId
   | none => True)

/-- Embedding of SceneManager rebuildEdges (appController.js lines 547-580):
    the previous edges group is removed from the artifact group and a freshly
    built, non-core edges group is added. -/
def rebuildEdgesStep (s : LoaderState) : LoaderState :=
  let g1 :=
    match s.edges with
    | some e => s.group.erase e
    | none => s.group
  let newEdges : Mesh := ⟨s.nextId, false⟩
  { s with group := g1 ++ [newEdges], edges := some newEdges,
           nextId := s.nextId + 1 }

/-- Center of the parsed geometry bounding box (box.getCenter). -/
def stlCenter (v : Vec3 ℚ) (rest : List (Vec3 ℚ)) : Vec3 ℚ :=
  smul (1 / 2) (vadd (bboxMin v rest) (bboxMax v rest))

/-- Largest dimension of the parsed geometry bounding box
    (Math.max(size.x, size.y, size.z)). -/
def stlMaxDim (v : Vec3 ℚ) (rest : List (Vec3 ℚ)) : ℚ :=
  let size := vsub (bboxMax v rest) (bboxMin v rest)
  max size.x (max size.y size.z)

/-- The uniform scale factor 5 / maxDim, with maxDim replaced by 1 when it is
    0 (the JS expression maxDim or-else 1). -/
def stlScale (v : Vec3 ℚ) (rest : List (Vec3 ℚ)) : ℚ :=
  5 / (if stlMaxDim v rest = 0 then 1 else stlMaxDim v rest)

/-- The core-mesh replacement phase of the FileReader onload handler
    (appController.js lines 458-470): the previous core mesh, if any, has its
    geometry disposed and is removed from the artifact group, and the new core
    mesh built from the scaled geometry is added. -/
def coreReplaceStep (s : LoaderState) (verts2 : List (Vec3 ℚ)) : LoaderState :=
  let g1 :=
    match s.core with
    | some c => s.group.erase c
    | none => s.group
  let d1 :=
    match s.core with
    | some c => c.id :: s.disposed
    | none => s.disposed
  let newCore : Mesh := ⟨s.nextId, true⟩
  { group := g1 ++ [newCore], core := some newCore, coreGeom := verts2,
    edges := s.edges, disposed := d1, nextId := s.nextId + 1 }

/-- Embedding of the FileReader onload handler of
    SceneManager._setupModelLoading (appController.js lines 446-482) on a
    successfully parsed, nonempty STL vertex list v :: rest: the geometry is
    translated by minus the box center, scaled by 5 / maxDim, the previous
    core mesh (if any) is disposed and removed, the new core mesh is added,
    and the edge overlays are rebuilt.  UI side effects (tree title, fit to
    view, logging) have no bearing on the claim and are not modelled. -/
def loadStl (s : LoaderState) (v : Vec3 ℚ) (rest : List (Vec3 ℚ)) : LoaderState :=
  let center := stlCenter v rest
  let verts1 := (v :: rest).map fun p => vsub p center
  let scaleFactor := stlScale v rest
  let verts2 := verts1.map fun p => smul scaleFactor p
  rebuildEdgesStep (coreReplaceStep s verts2)

theorem coreReplace_facts (s : LoaderState) (verts2 : List (Vec3 ℚ))
    (hinv : coreInv s) :
    (coreReplaceStep s verts2).group.Nodup ∧
    (∀ m ∈ (coreReplaceStep s verts2).group,
      m.id < (coreReplaceStep s verts2).nextId) ∧
    (∀ m ∈ (coreReplaceStep s verts2).group, m.isCore = true →
      m = ⟨s.nextId, true⟩) ∧
    (⟨s.nextId, true⟩ : Mesh) ∈ (coreReplaceStep s verts2).group ∧
    (∀ c, s.core = some c → c ∉ (coreReplaceStep s verts2).group ∧
      c.id ∈ (coreReplaceStep s verts2).disposed) ∧
    (∀ e, (coreReplaceStep s verts2).edges = some e →
      e.isCore = false ∧ e.id < (coreReplaceStep s verts2).nextId) := by
  obtain ⟨hnd, hcores, hcmatch, hids, hedg⟩ := hinv
  rcases hcore : s.core with _ | c0
  · simp only [coreReplaceStep, hcore]
    have hnewNotIn : (⟨s.nextId, true⟩ : Mesh) ∉ s.group := by
      intro hmem
      exact absurd (hids _ hmem) (by simp)
    refine ⟨?_, ?_, ?_, ?_, ?_, ?_⟩
    · refine hnd.append (List.nodup_singleton _) ?_
      intro a ha hb
      rw [List.mem_singleton] at hb
      subst hb
      exact hnewNotIn ha
    · intro m hm
      rcases List.mem_append.mp hm with h | h
      · exact Nat.lt_succ_of_lt (hids m h)
      · rw [List.mem_singleton] at h
        subst h
        exact Nat.lt_succ_self _
    · intro m hm hcm
      rcases List.mem_append.mp hm with h | h
      · exact absurd (hcores m h hcm) (by rw [hcore]; simp)
      · exact List.mem_singleton.mp h
    · exact List.mem_append.mpr (Or.inr (List.mem_singleton.mpr rfl))
    · intro c hc
      exact absurd hc (by simp)
    · intro e he
      have he2 : s.edges = some e := he
      rw [he2] at hedg
      exact ⟨hedg.1, Nat.lt_succ_of_lt hedg.2⟩
  · rw [hcore] at hcmatch
    simp only [coreReplaceStep, hcore]
    have hsub : s.group.erase c0 ⊆ s.group := List.erase_subset c0 s.group
    have hnewNotIn : (⟨s.nextId, true⟩ : Mesh) ∉ s.group.erase c0 := by
      intro hmem
      exact absurd (hids _ (hsub hmem)) (by simp)
    refine ⟨?_, ?_, ?_, ?_, ?_, ?_⟩
    · refine (hnd.erase c0).append (List.nodup_singleton _) ?_
      intro a ha hb
      rw [List.mem_singleton] at hb
      subst hb
      exact hnewNotIn ha
    · intro m hm
      rcases List.mem_append.mp hm with h | h
      · exact Nat.lt_succ_of_lt (hids m (hsub h))
      · rw [List.mem_singleton] at h
        subst h
        exact Nat.lt_succ_self _
    · intro m hm hcm
      rcases List.mem_append.mp hm with h | h
      · have hm2 := hcores m (hsub h) hcm
        rw [hcore] at hm2
        have hm3 : c0 = m := Option.some.inj hm2
        subst hm3
        exact absurd h hnd.not_mem_erase
      · exact List.mem_singleton.mp h
    · exact List.mem_append.mpr (Or.inr (List.mem_singleton.mpr rfl))
    · intro c hc
      have hc2 : c0 = c := Option.some.inj hc
      subst hc2
      constructor
      · intro hmem
        rcases List.mem_append.mp hmem with h | h
        · exact hnd.not_mem_erase h
        · rw [List.mem_singleton] at h
          have : c0.id = s.nextId := by rw [h]
          exact absurd hcmatch.2 (by rw [this]; exact lt_irrefl _)
      · exact List.mem_cons_self _ _
    · intro e he
      have he2 : s.edges = some e := he
      rw [he2] at hedg
      exact ⟨hedg.1, Nat.lt_succ_of_lt hedg.2⟩

theorem rebuildEdges_facts (t : LoaderState)
    (hnd : t.group.Nodup)
    (hids : ∀ m ∈ t.group, m.id < t.nextId)
    (hedg : ∀ e, t.edges = some e → e.isCore = false ∧ e.id < t.nextId) :
    (rebuildEdgesStep t).group.Nodup ∧
    (∀ m ∈ (rebuildEdgesStep t).group, m.id < (rebuildEdgesStep t).nextId) ∧
    (∀ m ∈ (rebuildEdgesStep t).group, m.isCore = true → m ∈ t.group) ∧
    (∀ m ∈ t.group, m.isCore = true → m ∈ (rebuildEdgesStep t).group) ∧
    (∀ m, m ∉ t.group → m.id ≠ t.nextId → m ∉ (rebuildEdgesStep t).group) ∧
    (rebuildEdgesStep t).core = t.core ∧
    (rebuildEdgesStep t).disposed = t.disposed ∧
    (rebuildEdgesStep t).edges = some ⟨t.nextId, false⟩ ∧
    (rebuildEdgesStep t).nextId = t.nextId + 1 ∧
    (rebuildEdgesStep t).coreGeom = t.coreGeom := by
  rcases hed : t.edges with _ | e0
  · simp only [rebuildEdgesStep, hed]
    have hnewNotIn : (⟨t.nextId, false⟩ : Mesh) ∉ t.group := by
      intro hmem
      exact absurd (hids _ hmem) (by simp)
    refine ⟨?_, ?_, ?_, ?_, ?_, by trivial, by trivial, by trivial, by trivial, by trivial⟩
    · refine hnd.append (List.nodup_singleton _) ?_
      intro a ha hb
      rw [List.mem_singleton] at hb
      subst hb
      exact hnewNotIn ha
    · intro m hm
      rcases List.mem_append.mp hm with h | h
      · exact Nat.lt_succ_of_lt (hids m h)
      · rw [List.mem_singleton] at h
        subst h
        exact Nat.lt_succ_self _
    · intro m hm hcm
      rcases List.mem_append.mp hm with h | h
      · exact h
      · rw [List.mem_singleton] at h
        subst h
        cases hcm
    · intro m hm _
      exact List.mem_append.mpr (Or.inl hm)
    · intro m hm hmid hmem
      rcases List.mem_append.mp hmem with h | h
      · exact hm h
      · rw [List.mem_singleton] at h
        apply hmid
        rw [h]
  · have he0 := hedg e0 hed
    simp only [rebuildEdgesStep, hed]
    have hsub : t.group.erase e0 ⊆ t.group := List.erase_subset e0 t.group
    have hnewNotIn : (⟨t.nextId, false⟩ : Mesh) ∉ t.group.erase e0 := by
      intro hmem
      exact absurd (hids _ (hsub hmem)) (by simp)
    refine ⟨?_, ?_, ?_, ?_, ?_, by trivial, by trivial, by trivial, by trivial, by trivial⟩
    · refine (hnd.erase e0).append (List.nodup_singleton _) ?_
      intro a ha hb
      rw [List.mem_singleton] at hb
      subst hb
      exact hnewNotIn ha
    · intro m hm
      rcases List.mem_append.mp hm with h | h
      · exact Nat.lt_succ_of_lt (hids m (hsub h))
      · rw [List.mem_singleton] at h
        subst h
        exact Nat.lt_succ_self _
    · intro m hm hcm
      rcases List.mem_append.mp hm with h | h
      · exact hsub h
      · rw [List.mem_singleton] at h
        subst h
        cases hcm
    · intro m hm hcm
      have hne : m ≠ e0 := by
        intro hme
        rw [hme, he0.1] at hcm
        cases hcm
      exact List.mem_append.mpr (Or.inl ((List.mem_erase_of_ne hne).mpr hm))
    · intro m hm hmid hmem
      rcases List.mem_append.mp hmem with h | h
      · exact hm (hsub h)
      · rw [List.mem_singleton] at h
        apply hmid
        rw [h]

theorem loadStl_group_spec (s : LoaderState) (verts2 : List (Vec3 ℚ))
    (hinv : coreInv s) :
    (∀ c, s.core = some c →
      c ∉ (rebuildEdgesStep (coreReplaceStep s verts2)).group ∧
      c.id ∈ (rebuildEdgesStep (coreReplaceStep s verts2)).disposed) ∧
    (∀ m ∈ (rebuildEdgesStep (coreReplaceStep s verts2)).group,
      m.isCore = true → m = ⟨s.nextId, true⟩) ∧
    (⟨s.nextId, true⟩ : Mesh) ∈ (rebuildEdgesStep (coreReplaceStep s verts2)).group ∧
    coreInv (rebuildEdgesStep (coreReplaceStep s verts2)) := by
  have hc1 := coreReplace_facts s verts2 hinv
  obtain ⟨hnd1, hids1, hchar1, hnew1, hold1, hedg1⟩ := hc1
  have hr := rebuildEdges_facts (coreReplaceStep s verts2) hnd1 hids1 hedg1
  obtain ⟨hndR, hidsR, hcharR, hbackR, hkeepoutR, hcoreR, hdispR, hedgesR,
    hnextR, hgeomR⟩ := hr
  have htcore : (coreReplaceStep s verts2).core = some ⟨s.nextId, true⟩ := by
    unfold coreReplaceStep
    rfl
  have htnext : (coreReplaceStep s verts2).nextId = s.nextId + 1 := by
    unfold coreReplaceStep
    rfl
  refine ⟨?_, ?_, ?_, ?_⟩
  · intro c hc
    obtain ⟨hnd0, hcores0, hcmatch0, hids0, hedg0⟩ := hinv
    rw [hc] at hcmatch0
    refine ⟨?_, ?_⟩
    · refine hkeepoutR c (hold1 c hc).1 ?_
      rw [htnext]
      have := hcmatch0.2
      omega
    · rw [hdispR]
      exact (hold1 c hc).2
  · intro m hm hcm
    exact hchar1 m (hcharR m hm hcm) hcm
  · exact hbackR _ hnew1 rfl
  · refine ⟨hndR, ?_, ?_, hidsR, ?_⟩
    · intro m hm hcm
      rw [hcoreR, htcore]
      rw [hchar1 m (hcharR m hm hcm) hcm]
    · rw [hcoreR, htcore]
      refine ⟨rfl, ?_⟩
      rw [hnextR, htnext]
      show s.nextId < s.nextId + 1 + 1
      omega
    · rw [hedgesR]
      refine ⟨rfl, ?_⟩
      rw [hnextR]
      show (coreReplaceStep s verts2).nextId < (coreReplaceStep s verts2).nextId + 1
      omega

theorem center_after_affine (k : ℚ) (mn mx : Vec3 ℚ) :
    smul (1 / 2) (vadd
      (smul k (vsub mn (smul (1 / 2) (vadd mn mx))))
      (smul k (vsub mx (smul (1 / 2) (vadd mn mx))))) = vzero := by
  simp only [smul, vadd, vsub, vzero, Vec3.ext_iff]
  refine ⟨by ring, by ring, by ring⟩

theorem sub_after_affine (k : ℚ) (c mn mx : Vec3 ℚ) :
    vsub (smul k (vsub mx c)) (smul k (vsub mn c)) = smul k (vsub mx mn) := by
  simp only [smul, vsub, Vec3.ext_iff]
  refine ⟨by ring, by ring, by ring⟩

/-- Minimum corner of the bounding box of the translated and scaled geometry
    produced by the STL loader. -/
def stlNewBBoxMin (v : Vec3 ℚ) (rest : List (Vec3 ℚ)) : Vec3 ℚ :=
  bboxMin (smul (stlScale v rest) (vsub v (stlCenter v rest)))
    (rest.map fun p => smul (stlScale v rest) (vsub p (stlCenter v rest)))

/-- Maximum corner of the bounding box of the translated and scaled geometry
    produced by the STL loader. -/
def stlNewBBoxMax (v : Vec3 ℚ) (rest : List (Vec3 ℚ)) : Vec3 ℚ :=
  bboxMax (smul (stlScale v rest) (vsub v (stlCenter v rest)))
    (rest.map fun p => smul (stlScale v rest) (vsub p (stlCenter v rest)))

theorem stlMaxDim_nonneg (v : Vec3 ℚ) (rest : List (Vec3 ℚ)) :
    0 ≤ stlMaxDim v rest := by
  have h := bboxMin_vle_bboxMax v rest
  unfold stlMaxDim
  have hx : 0 ≤ (vsub (bboxMax v rest) (bboxMin v rest)).x := by
    unfold vsub
    have := h.1
    simp only []
    linarith
  exact le_trans hx (le_max_left _ _)

theorem stlScale_nonneg (v : Vec3 ℚ) (rest : List (Vec3 ℚ)) :
    0 ≤ stlScale v rest := by
  unfold stlScale
  split
  · norm_num
  · next h =>
      have hpos : 0 < stlMaxDim v rest :=
        lt_of_le_of_ne (stlMaxDim_nonneg v rest) (Ne.symm h)
      exact le_of_lt (div_pos (by norm_num) hpos)

/-- C8: after a successful STL load the new core geometry is centered at the
    origin with largest bounding-box dimension at most 5 (exactly 5 unless the
    parsed bounding box was degenerate), the previous core mesh is removed
    from the artifact group with its geometry disposed, and the artifact group
    contains exactly the new mesh as its only core mesh, re-establishing the
    single-core invariant. -/
theorem loadStl_spec (s : LoaderState) (v : Vec3 ℚ) (rest : List (Vec3 ℚ))
    (hinv : coreInv s) :
    (loadStl s v rest).coreGeom =
      (v :: rest).map (fun p => smul (stlScale v rest) (vsub p (stlCenter v rest))) ∧
    smul (1 / 2) (vadd (stlNewBBoxMin v rest) (stlNewBBoxMax v rest)) = vzero ∧
    max (vsub (stlNewBBoxMax v rest) (stlNewBBoxMin v rest)).x
      (max (vsub (stlNewBBoxMax v rest) (stlNewBBoxMin v rest)).y
        (vsub (stlNewBBoxMax v rest) (stlNewBBoxMin v rest)).z) ≤ 5 ∧
    (stlMaxDim v rest ≠ 0 →
      max (vsub (stlNewBBoxMax v rest) (stlNewBBoxMin v rest)).x
        (max (vsub (stlNewBBoxMax v rest) (stlNewBBoxMin v rest)).y
          (vsub (stlNewBBoxMax v rest) (stlNewBBoxMin v rest)).z) = 5) ∧
    (∀ c, s.core = some c →
      c ∉ (loadStl s v rest).group ∧ c.id ∈ (loadStl s v rest).disposed) ∧
    (∀ m ∈ (loadStl s v rest).group, m.isCore = true → m = ⟨s.nextId, true⟩) ∧
    (⟨s.nextId, true⟩ : Mesh) ∈ (loadStl s v rest).group ∧
    coreInv (loadStl s v rest) := by
  have hkn : 0 ≤ stlScale v rest := stlScale_nonneg v rest
  have hming : stlNewBBoxMin v rest =
      smul (stlScale v rest) (vsub (bboxMin v rest) (stlCenter v rest)) :=
    foldl_vmin_map _ (fun a b => vmin_affine _ _ hkn a b) rest v
  have hmaxg : stlNewBBoxMax v rest =
      smul (stlScale v rest) (vsub (bboxMax v rest) (stlCenter v rest)) :=
    foldl_vmax_map _ (fun a b => vmax_affine _ _ hkn a b) rest v
  have hsize : vsub (stlNewBBoxMax v rest) (stlNewBBoxMin v rest) =
      smul (stlScale v rest) (vsub (bboxMax v rest) (bboxMin v rest)) := by
    rw [hming, hmaxg]
    exact sub_after_affine _ _ _ _
  have hmd : max (vsub (stlNewBBoxMax v rest) (stlNewBBoxMin v rest)).x
      (max (vsub (stlNewBBoxMax v rest) (stlNewBBoxMin v rest)).y
        (vsub (stlNewBBoxMax v rest) (stlNewBBoxMin v rest)).z) =
      stlScale v rest * stlMaxDim v rest := by
    rw [hsize]
    show max (stlScale v rest * _) (max (stlScale v rest * _) (stlScale v rest * _)) = _
    rw [← mul_max_of_nonneg _ _ hkn, ← mul_max_of_nonneg _ _ hkn]
    rfl
  have hkmul : stlScale v rest * stlMaxDim v rest =
      if stlMaxDim v rest = 0 then 0 else 5 := by
    unfold stlScale
    split
    · next h => rw [h]; ring
    · next h => exact div_mul_cancel₀ 5 h
  have hgrp := loadStl_group_spec s
    (((v :: rest).map fun p => vsub p (stlCenter v rest)).map
      fun p => smul (stlScale v rest) p) hinv
  refine ⟨?_, ?_, ?_, ?_, hgrp.1, hgrp.2.1, hgrp.2.2.1, hgrp.2.2.2⟩
  · show (((v :: rest).map fun p => vsub p (stlCenter v rest)).map
        fun p => smul (stlScale v rest) p) = _
    rw [List.map_map]
    rfl
  · rw [hming, hmaxg]
    exact center_after_affine (stlScale v rest) (bboxMin v rest) (bboxMax v rest)
  · rw [hmd, hkmul]
    split
    · norm_num
    · exact le_refl _
  · intro h0
    rw [hmd, hkmul, if_neg h0]

/-- A concrete loader state with one loaded core mesh and an edges overlay. -/
def loaderExample : LoaderState :=
  ⟨[⟨0, true⟩, ⟨1, false⟩], some ⟨0, true⟩, [⟨0, 0, 0⟩], some ⟨1, false⟩, [], 2⟩

/-- Witness for C8: loading a concrete two-point geometry over a state that
    already holds a core mesh removes and disposes the old core and leaves the
    new mesh as the only core mesh in the group. -/
theorem loadStl_spec_witness :
    (⟨2, true⟩ : Mesh) ∈ (loadStl loaderExample ⟨0, 0, 0⟩ [⟨2, 4, 6⟩]).group :=
  (loadStl_spec loaderExample ⟨0, 0, 0⟩ [⟨2, 4, 6⟩]
    (by unfold coreInv loaderExample; norm_num)).2.2.2.2.2.2.1

/-! ### Settings panel persistence (C10, settingsView.js) -/

/-- Decimal value of a digit list, none when a non-digit occurs.  Models the
    digits accepted by the JS Number coercion for plain decimal literals. -/
def digitsToNat (cs : List Char) : Option ℕ :=
  cs.foldl
    (fun acc c =>
      match acc with
      | none => none
      | some n => if c.isDigit then some (n * 10 + (c.toNat - 48)) else none)
    (some 0)

/-- Idealised JS Number coercion on a nonempty string restricted to plain
    decimal literals: optional leading minus, digits, optional dot and
    fraction digits.  Exponent, hexadecimal and whitespace forms of the JS
    coercion are outside the claims and return none (standing for NaN). -/
def parseDec (str : String) : Option ℚ :=
  let cs := str.toList
  let neg : Bool := match cs with | '-' :: _ => true | _ => false
  let cs1 := match cs with | '-' :: t => t | _ => cs
  match cs1.splitOn '.' with
  | [ip] =>
      if ip = [] then none
      else
        match digitsToNat ip with
        | some n => some (if neg then -(n : ℚ) else (n : ℚ))
        | none => none
  | [ip, fp] =>
      if ip = [] ∧ fp = [] then none
      else
        match digitsToNat ip, digitsToNat fp with
        | some n, some m =>
            some (if neg then -((n : ℚ) + (m : ℚ) / 10 ^ fp.length)
                  else (n : ℚ) + (m : ℚ) / 10 ^ fp.length)
        | _, _ => none
  | _ => none

/-- Fractional decimal digits of a reduced fraction, with fuel; models the
    digits printed by the JS number-to-string conversion (which always
    terminates for doubles; 20 digits more than cover it). -/
def natFracDigits : ℕ → ℕ → ℕ → List Char
  | 0, _, _ => []
  | _ + 1, 0, _ => []
  | fuel + 1, r, d =>
      Char.ofNat (48 + r * 10 / d) :: natFracDigits fuel (r * 10 % d) d

/-- Idealised JS number-to-string conversion on a rational: sign, integer
    part, and fractional digits when the value is not an integer. -/
def ratToString (q : ℚ) : String :=
  let sign := if q < 0 then "-" else ""
  let n := q.num.natAbs
  let d := q.den
  let ip := n / d
  let rest := n % d
  if rest = 0 then sign ++ toString ip
  else sign ++ toString ip ++ "." ++ String.mk (natFracDigits 20 rest d)

/-- The five settings form inputs read and written by the settings panel
    (element values are strings). -/
structure SettingsForm where
  bgcolor : String
  font : String
  fontsize : String
  mousemode : String
  featureangle : String
deriving DecidableEq

/-- The cfg object serialized to JSON under the viewer.settings key by
    applySettings: four string fields and the numeric featureAngle, where
    none models NaN (serialized by JSON.stringify as null and read back as
    an empty form value). -/
structure SettingsCfg where
  bgcolor : String
  font : String
  fontsize : String
  mousemode : String
  featureAngle : Option ℚ
deriving DecidableEq

/-- The localStorage key used by the settings panel. -/
def storageKey : String := "viewer.settings"

/-- Embedding of applySettings (settingsView.js lines 40-59) with all five
    inputs present: the form values become the cfg object, featureAngle via
    the JS expression Number(value or-else 0). -/
def applySettings (f : SettingsForm) : SettingsCfg :=
  { bgcolor := f.bgcolor, font := f.font, fontsize := f.fontsize,
    mousemode := f.mousemode,
    featureAngle := if f.featureangle = "" then some 0 else parseDec f.featureangle }

/-- The write to localStorage performed by applySettings. -/
def applySettingsStore (store : String → Option SettingsCfg) (f : SettingsForm) :
    String → Option SettingsCfg :=
  fun k => if k = storageKey then some (applySettings f) else store k

/-- Embedding of loadSettings (settingsView.js lines 14-38) acting on the
    form: each saved string field is written back only when truthy
    (nonempty); the saved featureAngle, which is never undefined once
    applySettings has run, is written back as its string rendering, the
    empty string when it is null. -/
def loadSettings (saved : SettingsCfg) (f : SettingsForm) : SettingsForm :=
  { bgcolor := if saved.bgcolor = "" then f.bgcolor else saved.bgcolor,
    font := if saved.font = "" then f.font else saved.font,
    fontsize := if saved.fontsize = "" then f.fontsize else saved.fontsize,
    mousemode := if saved.mousemode = "" then f.mousemode else saved.mousemode,
    featureangle :=
      match saved.featureAngle with
      | some q => ratToString q
      | none => "" }

/-- Reading the viewer.settings key back, with a missing key parsing as the
    empty object, whose absent fields are all skipped by loadSettings. -/
def loadSettingsFromStore (store : String → Option SettingsCfg)
    (f : SettingsForm) : SettingsForm :=
  match store storageKey with
  | some saved => loadSettings saved f
  | none => f

/-- Concrete form whose featureangle input is empty. -/
def emptyAngleForm : SettingsForm := ⟨"#ffffff", "Arial", "14", "Default", ""⟩

/-- Counterexample to C10 as stated: with an empty featureangle input,
    applySettings stores featureAngle 0 (the JS expression Number(value
    or-else 0)), and loadSettings writes the string 0 back into the input, so
    the round trip does not restore the empty string that was applied. -/
theorem settings_roundtrip_counterexample :
    loadSettingsFromStore (applySettingsStore (fun _ => none) emptyAngleForm)
      emptyAngleForm ≠ emptyAngleForm := by
  decide

/-- C10 (amended): for every form state the store/load round trip restores
    the four string fields bgcolor, font, fontsize and mousemode exactly and
    unconditionally, and restores the whole form, featureangle included,
    whenever the applied featureangle string is the canonical decimal
    rendering of its numeric coercion. -/
theorem settings_roundtrip (store : String → Option SettingsCfg)
    (f : SettingsForm) :
    ((loadSettingsFromStore (applySettingsStore store f) f).bgcolor = f.bgcolor ∧
     (loadSettingsFromStore (applySettingsStore store f) f).font = f.font ∧
     (loadSettingsFromStore (applySettingsStore store f) f).fontsize = f.fontsize ∧
     (loadSettingsFromStore (applySettingsStore store f) f).mousemode = f.mousemode) ∧
    (∀ q : ℚ, (applySettings f).featureAngle = some q →
      ratToString q = f.featureangle →
      loadSettingsFromStore (applySettingsStore store f) f = f) := by
  have hload : loadSettingsFromStore (applySettingsStore store f) f =
      loadSettings (applySettings f) f := by
    unfold loadSettingsFromStore applySettingsStore
    rw [if_pos rfl]
  constructor
  · rw [hload]
    refine ⟨?_, ?_, ?_, ?_⟩
    · show (if f.bgcolor = "" then f.bgcolor else f.bgcolor) = f.bgcolor
      split <;> rfl
    · show (if f.font = "" then f.font else f.font) = f.font
      split <;> rfl
    · show (if f.fontsize = "" then f.fontsize else f.fontsize) = f.fontsize
      split <;> rfl
    · show (if f.mousemode = "" then f.mousemode else f.mousemode) = f.mousemode
      split <;> rfl
  · intro q hq hcanon
    rw [hload]
    unfold loadSettings
    rw [hq]
    rcases f with ⟨bg, ft, fs, mm, fa⟩
    simp only [SettingsForm.mk.injEq, applySettings]
    refine ⟨?_, ?_, ?_, ?_, hcanon⟩ <;> split <;> rfl

/-- Witness for the amended C10, applying the round-trip theorem at a
    concrete canonical form and discharging the parse and canonical-rendering
    hypotheses of its second part there. -/
theorem settings_roundtrip_witness :
    loadSettingsFromStore
        (applySettingsStore (fun _ => none)
          ⟨"#8a8888", "Serif", "14", "Default", "30"⟩)
        ⟨"#8a8888", "Serif", "14", "Default", "30"⟩ =
      ⟨"#8a8888", "Serif", "14", "Default", "30"⟩ :=
  (settings_roundtrip (fun _ => none)
    ⟨"#8a8888", "Serif", "14", "Default", "30"⟩).2 30 (by decide) (by decide)
